import Mathlib

/-!
Shallow embedding of the storage and concurrency core of the CMU 15-445
teaching database (buffer pool manager, clock replacer, B+tree index pages,
lock manager), translated from the C++ sources of this repository, together
with theorems settling the frozen specification claims.

Machine integers (page ids, frame ids, transaction ids, sizes) are modelled
as `Int`/`Nat`; none of the embedded computations approaches 32-bit overflow
on the states considered, so no modular reduction is applied.  Fallible
paths (null-pointer dereference, out-of-bounds access) are modelled with
`Option`.
-/

namespace BusTub

/-! ## Clock replacer (src/buffer/lru_replacer.cpp) -/

/-- State of `LRUReplacer`: `pool` is `replacement_pool_` (the ordered ring of
candidate frames), `refs` is the `is_referenced` map (frame id to reference
bit), `pointer` is the clock hand `pointer_` (declared in the header, which is
not part of the sources; it is read in `Victim` and never written anywhere in
the sources). -/
structure ClockState where
  pool : List Int
  refs : List (Int × Bool)
  pointer : Nat
  deriving DecidableEq, Repr

/-- `is_referenced.find(frame_id)` on the embedded `unordered_map`. -/
def refsFind : List (Int × Bool) → Int → Option Bool
  | [], _ => none
  | (k, b) :: rest, v => if k = v then some b else refsFind rest v

/-- Writing `is_referenced[v] = false` (unordered_map keys are unique, so
the update touches every entry with that key). -/
def refsClear : List (Int × Bool) → Int → List (Int × Bool)
  | [], _ => []
  | (k, b) :: rest, v =>
    if k = v then (k, false) :: refsClear rest v
    else (k, b) :: refsClear rest v

/-- Erasing the key `v` from `is_referenced` (`is_referenced.erase(frame_id)`
in `LRUReplacer::Pin`). -/
def refsErase : List (Int × Bool) → Int → List (Int × Bool)
  | [], _ => []
  | (k, b) :: rest, v =>
    if k = v then refsErase rest v else (k, b) :: refsErase rest v

/-- `LRUReplacer::Pin` (lru_replacer.cpp lines 49-63): if the frame is not in
the `is_referenced` map, do nothing; otherwise erase it from the map and
remove its (unique) occurrence from `replacement_pool_`. -/
def replacerPin (s : ClockState) (f : Int) : ClockState :=
  match refsFind s.refs f with
  | none => s
  | some _ => { s with refs := refsErase s.refs f, pool := s.pool.erase f }

/-- `LRUReplacer::Unpin` (lru_replacer.cpp lines 65-73): no-op when already
present, else push the frame at the back of the ring with its bit set. -/
def replacerUnpin (s : ClockState) (f : Int) : ClockState :=
  match refsFind s.refs f with
  | some _ => s
  | none => { s with pool := s.pool ++ [f], refs := s.refs ++ [(f, true)] }

/-- One-candidate-per-step embedding of the scan loop of
`LRUReplacer::Victim` (lru_replacer.cpp lines 32-45).  The C++ loop runs
`i = 0 .. pool_size` (inclusive) and examines `replacement_pool_[pointer_]`
each time (the hand is never advanced by the loop); `fuel` counts remaining
iterations and the third component counts candidates examined.  Reading
`is_referenced[victim]` with `operator[]` default-inserts the key with a
`false` bit when absent, so when the bit reads `false` the subsequent `Pin`
always finds the key and removes the frame from both the map and the ring;
the two branches below inline exactly that.  A `none` result with exhausted
fuel corresponds to the loop falling through to `return false`; an
out-of-range hand (undefined behaviour in C++) also yields `none`. -/
def victimScan (fuel : Nat) (s : ClockState) (n : Nat) :
    Option Int × ClockState × Nat :=
  match fuel with
  | 0 => (none, s, n)
  | fuel + 1 =>
    match s.pool.get? s.pointer with
    | none => (none, s, n)
    | some v =>
      match refsFind s.refs v with
      | some true => victimScan fuel { s with refs := refsClear s.refs v } (n + 1)
      | _ =>
        (some v,
         { s with refs := refsErase s.refs v, pool := s.pool.erase v }, n + 1)

/-- `LRUReplacer::Victim` (lru_replacer.cpp lines 26-47): empty ring fails
immediately; otherwise run the scan for `Size() + 1` iterations.  Returns the
chosen frame (if any), the updated state, and the number of candidates
examined. -/
def lruVictim (s : ClockState) : Option Int × ClockState × Nat :=
  if s.pool.isEmpty then (none, s, 0)
  else victimScan (s.pool.length + 1) s 0

/-- `LRUReplacer::Size` (lru_replacer.cpp line 75). -/
def replacerSize (s : ClockState) : Nat := s.pool.length

/-! ## Buffer pool manager (src/buffer/buffer_pool_manager.cpp) -/

/-- One entry of the `pages_` frame array: the `Page` metadata (occupant page
id, pin count, dirty flag) plus its byte buffer, abstracted to one `Int`
value.  A fresh frame has `pageId = -1` (`INVALID_PAGE_ID`), zero pin count,
clear dirty bit and zeroed data. -/
structure Frame where
  pageId : Int
  pinCount : Int
  isDirty : Bool
  data : Int
  deriving DecidableEq, Repr

/-- State of `BufferPoolManager` together with the disk manager it drives:
`pages` is the frame array (indexed by frame id), `pageTable` maps page ids
to frame ids, `freeList` is `free_list_`, `replacer` the clock replacer,
`disk` the page-id-indexed disk contents, and `deallocated` records the page
ids passed to `DiskManager::DeallocatePage`. -/
structure BpmState where
  pages : List Frame
  pageTable : List (Int × Nat)
  freeList : List Nat
  replacer : ClockState
  disk : List (Int × Int)
  deallocated : List Int
  deriving DecidableEq, Repr

/-- `page_table_.find(page_id)`. -/
def ptFind (pt : List (Int × Nat)) (pid : Int) : Option Nat :=
  match pt with
  | [] => none
  | (k, f) :: rest => if k = pid then some f else ptFind rest pid

/-- `page_table_.erase(page_id)` (unordered_map keys are unique). -/
def ptErase (pt : List (Int × Nat)) (pid : Int) : List (Int × Nat) :=
  pt.filter (fun p => p.1 ≠ pid)

/-- `page_table_[page_id] = frame_id`: update in place if present, else
append. -/
def ptSet (pt : List (Int × Nat)) (pid : Int) (f : Nat) : List (Int × Nat) :=
  match ptFind pt pid with
  | some _ => pt.map (fun p => if p.1 = pid then (p.1, f) else p)
  | none => pt ++ [(pid, f)]

/-- Update the frame at index `f` of the frame array. -/
def frameUpdate (pages : List Frame) (f : Nat) (fn : Frame → Frame) :
    List Frame :=
  pages.mapIdx (fun i p => if i = f then fn p else p)

/-- `DiskManager::ReadPage`: a page never written reads back as zeroes. -/
def diskRead (disk : List (Int × Int)) (pid : Int) : Int :=
  match disk with
  | [] => 0
  | (k, v) :: rest => if k = pid then v else diskRead rest pid

/-- `DiskManager::WritePage`. -/
def diskWrite (disk : List (Int × Int)) (pid : Int) (v : Int) :
    List (Int × Int) :=
  match ptFindInt disk pid with
  | some _ => disk.map (fun p => if p.1 = pid then (p.1, v) else p)
  | none => disk ++ [(pid, v)]
where
  /-- assoc lookup on the disk map -/
  ptFindInt : List (Int × Int) → Int → Option Int
    | [], _ => none
    | (k, v) :: rest, pid => if k = pid then some v else ptFindInt rest pid

/-- `BufferPoolManager::ResetMetadata` (buffer_pool_manager.cpp lines
248-252): clears pin count and dirty flag (the occupant page id is not
touched). -/
def resetMetadata (pages : List Frame) (f : Nat) : List Frame :=
  frameUpdate pages f (fun p => { p with pinCount := 0, isDirty := false })

/-- `BufferPoolManager::IncrementPinCount` (lines 254-257). -/
def incrementPinCount (pages : List Frame) (f : Nat) : List Frame :=
  frameUpdate pages f (fun p => { p with pinCount := p.pinCount + 1 })

/-- `BufferPoolManager::DecrementPinCount` (lines 259-262). -/
def decrementPinCount (pages : List Frame) (f : Nat) : List Frame :=
  frameUpdate pages f (fun p => { p with pinCount := p.pinCount - 1 })

/-- Modelled from the spec: `Page::SetDirty` — the `Page` class header is not
among the sources (only its caller `UnpinPageImpl` is).  Spec §9 records the
observed source behaviour: the dirty flag is overwritten on unpin
(`Source sometimes unpins after marking a page "dirty = false" when it has
been modified; implementers must OR rather than overwrite the dirty bit`),
so `SetDirty` assigns its argument. -/
def setDirty (pages : List Frame) (f : Nat) (d : Bool) : List Frame :=
  frameUpdate pages f (fun p => { p with isDirty := d })

/-- `BufferPoolManager::FlushPageImpl` (buffer_pool_manager.cpp lines
122-133): fails on `INVALID_PAGE_ID` or a page id absent from the page
table, else writes the resident frame's bytes to disk. -/
def flushPageImpl (s : BpmState) (pid : Int) : Bool × BpmState :=
  if pid = -1 then (false, s)
  else
    match ptFind s.pageTable pid with
    | none => (false, s)
    | some f =>
      match s.pages.get? f with
      | none => (false, s)
      | some page => (true, { s with disk := diskWrite s.disk pid page.data })

/-- `BufferPoolManager::FetchPageImpl` (buffer_pool_manager.cpp lines
39-99), translated branch by branch:
1. resident: increment the pin count, pin in the replacer, return the frame;
2. free list non-empty: take `free_list_.front()` (the code does **not** pop
   it), read the page from disk into that frame's buffer, install the page
   table mapping and increment the pin count (the code does **not** set the
   frame's `page_id` metadata, reset its dirty bit, or touch the replacer);
3. else ask the replacer for a victim: erase the victim's page-table entry,
   then flush it if dirty (the flush is a no-op because the entry was just
   erased), zero the buffer, reset metadata, read the requested page from
   disk, install the mapping, pin, and set the occupant page id.
Returns the chosen frame id (`nullptr` = `none`) and the new state. -/
def fetchPageImpl (s : BpmState) (pid : Int) : Option Nat × BpmState :=
  match ptFind s.pageTable pid with
  | some f =>
    (some f, { s with pages := incrementPinCount s.pages f,
                      replacer := replacerPin s.replacer (Int.ofNat f) })
  | none =>
    match s.freeList with
    | f :: _ =>
      (some f, { s with
        pages := incrementPinCount
          (frameUpdate s.pages f (fun p => { p with data := diskRead s.disk pid })) f,
        pageTable := ptSet s.pageTable pid f })
    | [] =>
      if replacerSize s.replacer > 0 then
        match lruVictim s.replacer with
        | (some vf, rep1, _) =>
          let f := vf.toNat
          match s.pages.get? f with
          | none => (none, s)
          | some victim =>
            let vpid := victim.pageId
            let s1 := { s with pageTable := ptErase s.pageTable vpid,
                               replacer := rep1 }
            let s2 := if victim.isDirty then (flushPageImpl s1 vpid).2 else s1
            let pages3 := resetMetadata
              (frameUpdate s2.pages f (fun p => { p with data := 0 })) f
            let pages4 := frameUpdate pages3 f
              (fun p => { p with data := diskRead s2.disk pid })
            let s3 := { s2 with
              pages := incrementPinCount pages4 f,
              pageTable := ptSet s2.pageTable pid f }
            (some f, { s3 with
              pages := frameUpdate s3.pages f (fun p => { p with pageId := pid }),
              replacer := replacerPin s3.replacer vf })
        | (none, _, _) => (none, s)
      else (none, s)

/-- `BufferPoolManager::UnpinPageImpl` (buffer_pool_manager.cpp lines
101-120): fails when the page is not resident or its pin count is already
non-positive; otherwise decrements the pin count, hands the frame to the
replacer when the count reaches zero, and then **assigns** the `is_dirty`
argument to the page's dirty flag (`page->SetDirty(is_dirty)`). -/
def unpinPageImpl (s : BpmState) (pid : Int) (isDirty : Bool) :
    Bool × BpmState :=
  match ptFind s.pageTable pid with
  | none => (false, s)
  | some f =>
    match s.pages.get? f with
    | none => (false, s)
    | some page =>
      if page.pinCount ≤ 0 then (false, s)
      else
        let pages1 := decrementPinCount s.pages f
        let rep1 := if page.pinCount - 1 = 0
          then replacerUnpin s.replacer (Int.ofNat f) else s.replacer
        (true, { s with pages := setDirty pages1 f isDirty, replacer := rep1 })

/-- `BufferPoolManager::DeletePageImpl` (buffer_pool_manager.cpp lines
205-230): succeed as a no-op when the page is not resident; fail when the
resident page is pinned; otherwise remove the page-table entry, reset the
frame's metadata and append the frame to the free list.  The function's own
step-0 comment says `Make sure you call DiskManager::DeallocatePage!`, but
no such call appears in the body, so `deallocated` is never extended. -/
def deletePageImpl (s : BpmState) (pid : Int) : Bool × BpmState :=
  match ptFind s.pageTable pid with
  | none => (true, s)
  | some f =>
    match s.pages.get? f with
    | none => (true, s)
    | some page =>
      if page.pinCount > 0 then (false, s)
      else
        (true, { s with pageTable := ptErase s.pageTable pid,
                        pages := resetMetadata s.pages f,
                        freeList := s.freeList ++ [f] })

/-! ## B+tree pages and the (unlatched) B+tree
(src/storage/index/b_plus_tree.cpp, src/storage/page/b_plus_tree_leaf_page.cpp,
src/include/storage/page/b_plus_tree_leaf_page.h, and the internal-page and
latched-tree sources among the unnamed files). -/

/-- A B+tree node as stored in a page.  Keys and record values are `Nat`;
page ids are `Int` with `-1 = INVALID_PAGE_ID`.  `maxSize` is the stored
`max_size_` header field (what `SetMaxSize` wrote), `parent` the
`parent_page_id_`.  An internal node's slot-0 key is a sentinel; it is
modelled as `0` where the C++ leaves it uninitialized. -/
inductive BNode where
  | leaf (parent : Int) (maxSize : Int) (items : List (Nat × Nat)) (next : Int)
  | internal (parent : Int) (maxSize : Int) (items : List (Nat × Int))
  deriving DecidableEq, Repr

/-- `BPlusTreePage::GetParentPageId`. -/
def nodeParent : BNode → Int
  | .leaf p _ _ _ => p
  | .internal p _ _ => p

/-- `BPlusTreePage::SetParentPageId`. -/
def nodeSetParent : BNode → Int → BNode
  | .leaf _ m xs n, p => .leaf p m xs n
  | .internal _ m xs, p => .internal p m xs

/-- The `while (l < r)` binary search of `BPlusTreeLeafPage::KeyIndex`
(b_plus_tree_leaf_page.cpp lines 59-76): find the smallest index `i` with
`KeyAt(i) >= key`; `comparator(KeyAt(mid), key) >= 0` is `key ≤ KeyAt(mid)`.
The interval shrinks every iteration, so `size + 1` fuel always suffices. -/
def leafKeyIndexLoop (items : List (Nat × Nat)) (key : Nat) :
    Nat → Nat → Nat → Nat
  | 0, l, _ => l
  | fuel + 1, l, r =>
    if l < r then
      let mid := (l + r) / 2
      if key ≤ (items.getD mid (0, 0)).1 then leafKeyIndexLoop items key fuel l mid
      else leafKeyIndexLoop items key fuel (mid + 1) r
    else l

/-- `BPlusTreeLeafPage::KeyIndex`: `l = 0`, `r = GetSize()`. -/
def leafKeyIndex (items : List (Nat × Nat)) (key : Nat) : Nat :=
  leafKeyIndexLoop items key (items.length + 1) 0 items.length

/-- `BPlusTreeLeafPage::Insert` (b_plus_tree_leaf_page.cpp lines 117-135):
find the insert position, return the page unchanged when the key at that
position is a duplicate, else shift right and insert. -/
def leafInsertItems (items : List (Nat × Nat)) (k v : Nat) :
    List (Nat × Nat) :=
  let i := leafKeyIndex items k
  if i < items.length ∧ (items.getD i (0, 0)).1 = k then items
  else items.take i ++ (k, v) :: items.drop i

/-- `BPlusTreeLeafPage::Lookup` (b_plus_tree_leaf_page.cpp lines 180-188). -/
def leafLookup (items : List (Nat × Nat)) (k : Nat) : Option Nat :=
  let i := leafKeyIndex items k
  if i < items.length ∧ (items.getD i (0, 0)).1 = k
  then some (items.getD i (0, 0)).2 else none

/-- `BPlusTreeLeafPage::IsFull` (b_plus_tree_leaf_page.h lines 58-59):
`GetSize() >= GetMaxSize() - 1`. -/
def leafIsFull (maxSize : Int) (size : Nat) : Bool :=
  (size : Int) ≥ maxSize - 1

/-- Modelled from the spec: `BPlusTreePage::IsFull` for internal pages —
`b_plus_tree_page.h`/`b_plus_tree_internal_page.h` are not among the
sources (only callers are).  Spec §4.3: nodes are split when overfull (size
would exceed max after insert); `InsertIntoParent` tests fullness before
inserting, so full means `size ≥ max_size`. -/
def internalIsFull (maxSize : Int) (size : Nat) : Bool :=
  (size : Int) ≥ maxSize

/-- Modelled from the spec: `BPlusTreePage::GetMinSize` — not among the
sources.  Spec §3: every non-root node keeps between `⌈max_size/2⌉` and
`max_size` entries, so the minimum size is `⌈max_size/2⌉`. -/
def internalMinSize (maxSize : Int) : Int := (maxSize + 1) / 2

/-- The binary search of `BPlusTreeInternalPage::Lookup`
(b_plus_tree_internal_page.cpp lines 95-113): `l = 1`, `r = GetSize()`,
narrow to the smallest `i ≥ 1` whose key exceeds the search key;
`comparator(mid_key, key) > 0` is `key < mid_key`. -/
def internalLookupLoop (items : List (Nat × Int)) (key : Nat) :
    Nat → Nat → Nat → Nat
  | 0, l, _ => l
  | fuel + 1, l, r =>
    if l < r then
      let mid := (l + r) / 2
      if key < (items.getD mid (0, -1)).1 then internalLookupLoop items key fuel l mid
      else internalLookupLoop items key fuel (mid + 1) r
    else l

/-- `BPlusTreeInternalPage::Lookup`: descend to `ValueAt(l - 1)`. -/
def internalLookup (items : List (Nat × Int)) (key : Nat) : Int :=
  let l := internalLookupLoop items key (items.length + 1) 1 items.length
  (items.getD (l - 1) (0, -1)).2

/-- `BPlusTreeInternalPage::ValueIndex` (b_plus_tree_internal_page.cpp lines
68-77): first index holding the value, `0` when absent. -/
def valueIndex (items : List (Nat × Int)) (v : Int) : Nat :=
  (items.findIdx? (fun p => p.2 = v)).getD 0

/-- `BPlusTreeInternalPage::InsertNodeAfter` (b_plus_tree_internal_page.cpp
lines 142-150): insert the new pair right after the pair holding
`old_value`. -/
def insertNodeAfter (items : List (Nat × Int)) (oldV : Int) (k : Nat)
    (newV : Int) : List (Nat × Int) :=
  let vi := valueIndex items oldV
  items.take (vi + 1) ++ (k, newV) :: items.drop (vi + 1)

/-- `BPlusTreeInternalPage::PopulateNewRoot` (b_plus_tree_internal_page.cpp
lines 126-133): value slot 0 is the old root, pair 1 is the separator key
with the new sibling; the slot-0 sentinel key is modelled as `0`. -/
def populateNewRoot (oldId : Int) (key : Nat) (newId : Int) :
    List (Nat × Int) :=
  [(0, oldId), (key, newId)]

/-- State of a `BPlusTree`: the root page id (`-1` when empty), the two
constructor fan-out parameters, the page store (what the buffer pool holds
for this index), and the next page id the disk manager would allocate.  The
header page bookkeeping of `UpdateRootPageId` only mirrors `rootPageId` and
is not modelled separately. -/
structure BPTree where
  rootPageId : Int
  leafMaxSize : Int
  internalMaxSize : Int
  pages : List (Int × BNode)
  nextPageId : Int
  deriving DecidableEq, Repr

/-- Fetch a page of the tree (`buffer_pool_manager_->FetchPage`). -/
def storeFind : List (Int × BNode) → Int → Option BNode
  | [], _ => none
  | (k, n) :: rest, pid => if k = pid then some n else storeFind rest pid

/-- Write a page back (update in place, or materialize a freshly allocated
page). -/
def storeSet (ps : List (Int × BNode)) (pid : Int) (n : BNode) :
    List (Int × BNode) :=
  match storeFind ps pid with
  | some _ => ps.map (fun p => if p.1 = pid then (p.1, n) else p)
  | none => ps ++ [(pid, n)]

/-- `SetParentPageId` on the page `pid` of the store (no-op when absent). -/
def setParentOf (ps : List (Int × BNode)) (pid : Int) (parent : Int) :
    List (Int × BNode) :=
  match storeFind ps pid with
  | some n => storeSet ps pid (nodeSetParent n parent)
  | none => ps

/-- The adoption loop of `BPlusTreeInternalPage::CopyNFrom`
(b_plus_tree_internal_page.cpp lines 181-191): every moved child's
`parent_page_id` is repointed at the recipient. -/
def reparentChildren (ps : List (Int × BNode)) (items : List (Nat × Int))
    (parent : Int) : List (Int × BNode) :=
  items.foldl (fun acc p => setParentOf acc p.2 parent) ps

/-- `BPlusTree::IsEmpty` (b_plus_tree.cpp line 39). -/
def bptIsEmpty (t : BPTree) : Bool := t.rootPageId = -1

/-- The descent loop of `BPlusTree::FindLeafPage` (b_plus_tree.cpp lines
602-643, `leftMost = false`): `none` on an empty tree or when a fetch fails
(the C++ returns `nullptr`); otherwise route by `Lookup` on each internal
node down to the leaf's page id. -/
def findLeafPage (t : BPTree) (key : Nat) : Option Int :=
  if t.rootPageId = -1 then none
  else
    match storeFind t.pages t.rootPageId with
    | none => none
    | some (.leaf _ _ _ _) => some t.rootPageId
    | some (.internal _ _ items) => descend (t.pages.length + 1) items
where
  descend : Nat → List (Nat × Int) → Option Int
    | 0, _ => none
    | fuel + 1, items =>
      let childPid := internalLookup items key
      match storeFind t.pages childPid with
      | none => none
      | some (.leaf _ _ _ _) => some childPid
      | some (.internal _ _ items2) => descend fuel items2

/-- `BPlusTree::GetValue` of the **unlatched** variant (b_plus_tree.cpp
lines 51-62).  The code immediately dereferences the page handle returned by
`FindLeafPage` (`FindLeafPage(key)->GetData()`); on an empty tree that
handle is null, modelled as the `none` outcome.  `some found` is the normal
return value. -/
def getValueUnlatched (t : BPTree) (key : Nat) : Option Bool :=
  match findLeafPage t key with
  | none => none
  | some pid =>
    match storeFind t.pages pid with
    | some (.leaf _ _ items _) => some (leafLookup items key).isSome
    | _ => none

/-- `BPlusTree::GetValue` of the **latched** variant (the unnamed
`b_plus_tree.cpp` source, lines 52-74): an explicit `IsEmpty` check returns
`false` before `FindLeafPage` is consulted, so the null handle is never
dereferenced. -/
def getValueLatched (t : BPTree) (key : Nat) : Option Bool :=
  if t.rootPageId = -1 then some false
  else
    match findLeafPage t key with
    | none => none
    | some pid =>
      match storeFind t.pages pid with
      | some (.leaf _ _ items _) => some (leafLookup items key).isSome
      | _ => none

/-- `BPlusTree::StartNewTree` (b_plus_tree.cpp lines 95-110): allocate the
root page, `Init` it as a leaf (`BPlusTreeLeafPage::Init`,
b_plus_tree_leaf_page.cpp lines 34-43, stores `max_size - 1`), and insert
the first pair. -/
def startNewTree (t : BPTree) (k v : Nat) : BPTree :=
  let pid := t.nextPageId
  let node := BNode.leaf (-1) (t.leafMaxSize - 1) (leafInsertItems [] k v) (-1)
  { t with rootPageId := pid, nextPageId := pid + 1,
           pages := storeSet t.pages pid node }

/-- `BPlusTree::InsertIntoParent` of the unlatched variant (b_plus_tree.cpp
lines 207-267).  Root case: allocate a new internal root via
`PopulateNewRoot` and repoint both children.  Non-root case: if the parent
is full, insert, split the parent (`Split`, lines 163-196, with the
internal `MoveHalfTo` that moves `size - GetMinSize()` upper entries and
re-parents them), and recurse with the sibling's first key as separator;
else just insert and repoint the new child.  `fuel` bounds the parent
chain; `none` marks the unreachable fetch-failure / corrupt-parent paths
where the C++ throws. -/
def insertIntoParent : Nat → BPTree → Int → Nat → Int → Option BPTree
  | 0, _, _, _, _ => none
  | fuel + 1, t, oldPid, key, newPid =>
    match storeFind t.pages oldPid with
    | none => none
    | some oldNode =>
      if nodeParent oldNode = -1 then
        let rootPid := t.nextPageId
        let pages1 := storeSet t.pages rootPid
          (.internal (-1) t.internalMaxSize (populateNewRoot oldPid key newPid))
        let pages2 := storeSet pages1 oldPid (nodeSetParent oldNode rootPid)
        let pages3 := setParentOf pages2 newPid rootPid
        some { t with rootPageId := rootPid, nextPageId := rootPid + 1,
                      pages := pages3 }
      else
        let parentId := nodeParent oldNode
        match storeFind t.pages parentId with
        | none => none
        | some (.leaf _ _ _ _) => none
        | some (.internal pparent pmax pitems) =>
          if internalIsFull pmax pitems.length then
            let pitems1 := insertNodeAfter pitems oldPid key newPid
            let pages1 := storeSet t.pages parentId (.internal pparent pmax pitems1)
            let pages2 := setParentOf pages1 newPid parentId
            let sibPid := t.nextPageId
            let remain := (internalMinSize pmax).toNat
            let leftItems := pitems1.take remain
            let rightItems := pitems1.drop remain
            let pages3 := storeSet pages2 parentId (.internal pparent pmax leftItems)
            let pages4 := storeSet pages3 sibPid (.internal (-1) t.internalMaxSize rightItems)
            let pages5 := reparentChildren pages4 rightItems sibPid
            let sepKey := (rightItems.getD 0 (0, -1)).1
            insertIntoParent fuel
              { t with pages := pages5, nextPageId := sibPid + 1 }
              parentId sepKey sibPid
          else
            let pitems1 := insertNodeAfter pitems oldPid key newPid
            let pages1 := storeSet t.pages parentId (.internal pparent pmax pitems1)
            let pages2 := setParentOf pages1 newPid parentId
            some { t with pages := pages2 }

/-- `BPlusTree::InsertIntoLeaf` of the unlatched variant (b_plus_tree.cpp
lines 121-149).  Fullness (`IsFull`) is tested **before** the insert; a
non-full leaf takes the plain `BPlusTreeLeafPage::Insert` (which rejects
duplicates by leaving the page unchanged).  A full leaf is inserted into and
then split via the one-argument leaf `MoveHalfTo` (the unnamed
`b_plus_tree_leaf_page.cpp`, lines 155-164: the upper `size - size/2`
entries move to the new sibling).  The next-pointer stitching follows lines
139-140: `new_node->SetNextPageId(new_node->GetNextPageId())` is a no-op,
so the new sibling keeps the `INVALID_PAGE_ID` from `Init`, and the old
leaf's next pointer is set to the sibling. -/
def insertIntoLeaf (t : BPTree) (k v : Nat) : Option BPTree :=
  match findLeafPage t k with
  | none => none
  | some leafPid =>
    match storeFind t.pages leafPid with
    | some (.leaf lparent lmax litems _lnext) =>
      if ¬ leafIsFull lmax litems.length then
        let node1 := BNode.leaf lparent lmax (leafInsertItems litems k v) _lnext
        some { t with pages := storeSet t.pages leafPid node1 }
      else
        let litems1 := leafInsertItems litems k v
        let newPid := t.nextPageId
        let st := litems1.length / 2
        let pages1 := storeSet t.pages leafPid
          (.leaf lparent lmax (litems1.take st) newPid)
        let pages2 := storeSet pages1 newPid
          (.leaf (-1) (t.leafMaxSize - 1) (litems1.drop st) (-1))
        let sepKey := ((litems1.drop st).getD 0 (0, 0)).1
        insertIntoParent (pages2.length + 2)
          { t with pages := pages2, nextPageId := newPid + 1 }
          leafPid sepKey newPid
    | _ => none

/-- `BPlusTree::Insert` of the unlatched variant (b_plus_tree.cpp lines
74-87): start a new tree when empty, else `InsertIntoLeaf`; the boolean
result of `InsertIntoLeaf` is discarded and the function returns `true`
unconditionally (`// TODO(silentroar): deal with duplicate key`). -/
def bptInsert (t : BPTree) (k v : Nat) : Option (Bool × BPTree) :=
  if t.rootPageId = -1 then some (true, startNewTree t k v)
  else
    match insertIntoLeaf t k v with
    | some t1 => some (true, t1)
    | none => none

/-- Run a sequence of inserts, propagating the crash marker. -/
def insertSeq (t : BPTree) : List (Nat × Nat) → Option BPTree
  | [] => some t
  | (k, v) :: rest =>
    match bptInsert t k v with
    | some (_, t1) => insertSeq t1 rest
    | none => none

/-- Page id of the leftmost leaf: descend through slot-0 child pointers. -/
def leftmostLeaf (t : BPTree) : Nat → Int → Option Int
  | 0, _ => none
  | fuel + 1, pid =>
    match storeFind t.pages pid with
    | some (.leaf _ _ _ _) => some pid
    | some (.internal _ _ items) =>
      leftmostLeaf t fuel (items.getD 0 (0, -1)).2
    | none => none

/-- Key lists of the leaves in sibling-chain order starting at `pid`. -/
def leafChainFrom (t : BPTree) : Nat → Int → List (List Nat)
  | 0, _ => []
  | fuel + 1, pid =>
    match storeFind t.pages pid with
    | some (.leaf _ _ items next) =>
      (items.map (fun p => p.1)) ::
        (if next = -1 then [] else leafChainFrom t fuel next)
    | _ => []

/-- Key lists of all leaves, leftmost first, following `next_page_id`. -/
def leafChain (t : BPTree) : List (List Nat) :=
  match leftmostLeaf t (t.pages.length + 1) t.rootPageId with
  | some pid => leafChainFrom t (t.pages.length + 1) pid
  | none => []

/-- The root's key list when the root is an internal page (slot 0 is the
sentinel). -/
def rootInternalKeys (t : BPTree) : Option (List Nat) :=
  match storeFind t.pages t.rootPageId with
  | some (.internal _ _ items) => some (items.map (fun p => p.1))
  | _ => none

/-- An empty tree as the constructor builds it (b_plus_tree.cpp lines
26-33), with the first disk page the index would allocate numbered `1`
(page 0 is the header page). -/
def emptyTree (leafMax internalMax : Int) : BPTree :=
  { rootPageId := -1, leafMaxSize := leafMax, internalMaxSize := internalMax,
    pages := [], nextPageId := 1 }

/-! ## Lock manager (src/concurrency/lock_manager.cpp) -/

/-- Isolation levels of `Transaction`. -/
inductive IsoLevel where
  | readUncommitted
  | readCommitted
  | repeatableRead
  deriving DecidableEq, Repr

/-- Transaction states. -/
inductive TxnState where
  | growing
  | shrinking
  | committed
  | aborted
  deriving DecidableEq, Repr

/-- `LockManager::LockMode`. -/
inductive LMode where
  | shared
  | exclusive
  deriving DecidableEq, Repr

/-- `LockManager::LockRequest`: `(txn_id, lock_mode, granted)`. -/
structure LockRequest where
  txnId : Int
  mode : LMode
  granted : Bool
  deriving DecidableEq, Repr

/-- `LockManager::LockRequestQueue` (the condition variable carries no
state that matters to the embedding). -/
structure LockRequestQueue where
  requests : List LockRequest
  upgrading : Bool
  deriving DecidableEq, Repr

/-- The slice of `Transaction` the lock manager reads and writes: identity,
isolation level, state, and the two lock sets (RIDs are opaque; modelled as
`Nat`). -/
structure Txn where
  txnId : Int
  isolation : IsoLevel
  state : TxnState
  sharedSet : List Nat
  exclusiveSet : List Nat
  deriving DecidableEq, Repr

/-- `Transaction::IsSharedLocked`. -/
def isSharedLocked (t : Txn) (rid : Nat) : Bool := t.sharedSet.contains rid

/-- `Transaction::IsExclusiveLocked`. -/
def isExclusiveLocked (t : Txn) (rid : Nat) : Bool :=
  t.exclusiveSet.contains rid

/-- `lock_set->erase(rid)` on an `unordered_set` (keys unique). -/
def eraseRid (s : List Nat) (rid : Nat) : List Nat :=
  s.filter (fun r => r ≠ rid)

/-- `request_queue_.remove_if([&](r){ return txn_id == r.txn_id_; })`
(lock_manager.cpp lines 193-194 and 215-216). -/
def removeTxnRequests (q : LockRequestQueue) (tid : Int) : LockRequestQueue :=
  { q with requests := q.requests.filter (fun r => r.txnId ≠ tid) }

/-- Apply `f` to the queue of `rid` in the lock table (`lock_table_[rid]`;
the entry is assumed present, as it is whenever the transaction holds a
lock on `rid`). -/
def tableUpdate (tbl : List (Nat × LockRequestQueue)) (rid : Nat)
    (f : LockRequestQueue → LockRequestQueue) :
    List (Nat × LockRequestQueue) :=
  tbl.map (fun p => if p.1 = rid then (p.1, f p.2) else p)

/-- `lock_table_.find(rid)`. -/
def tableFind : List (Nat × LockRequestQueue) → Nat → Option LockRequestQueue
  | [], _ => none
  | (k, q) :: rest, rid => if k = rid then some q else tableFind rest rid

/-- `LockManager::Unlock` (lock_manager.cpp lines 180-220).  Returns
`(ok, updated transaction, updated lock table)`:
* neither lock held: `false`, nothing changes;
* `READ_COMMITTED` holding S on `rid`: erase the shared-set entry and the
  queue records, no state transition (the `assert` on line 189 is a debug
  aid and compiles away under `NDEBUG`);
* otherwise: `GROWING` moves to `SHRINKING`, the held lock's set entry and
  the queue records are erased.  All of these broadcast the queue. -/
def lmUnlock (tbl : List (Nat × LockRequestQueue)) (txn : Txn) (rid : Nat) :
    Bool × Txn × List (Nat × LockRequestQueue) :=
  if ¬ (isSharedLocked txn rid || isExclusiveLocked txn rid) then
    (false, txn, tbl)
  else if txn.isolation = IsoLevel.readCommitted ∧ isSharedLocked txn rid then
    (true, { txn with sharedSet := eraseRid txn.sharedSet rid },
     tableUpdate tbl rid (fun q => removeTxnRequests q txn.txnId))
  else
    let txn1 := if txn.state = TxnState.growing
      then { txn with state := TxnState.shrinking } else txn
    let txn2 := if isSharedLocked txn rid
      then { txn1 with sharedSet := eraseRid txn1.sharedSet rid }
      else { txn1 with exclusiveSet := eraseRid txn1.exclusiveSet rid }
    (true, txn2, tableUpdate tbl rid (fun q => removeTxnRequests q txn.txnId))

/-- The record-finding loop of `LockManager::LockUpgrade` (lines 147-149
with the `break`): split the queue into the other requests (order kept) and
the first record of the transaction, if any. -/
def upgradeScan (tid : Int) : List LockRequest →
    Option (List LockRequest × LockRequest)
  | [] => none
  | r :: rest =>
    if r.txnId = tid then some (rest, r)
    else
      match upgradeScan tid rest with
      | some (others, found) => some (r :: others, found)
      | none => none

/-- The critical section of `LockManager::LockUpgrade` under `latch_`
(lock_manager.cpp lines 146-171), for a `GROWING` caller.  Returns the new
queue, the new transaction, and whether the call returned `false` with an
upgrade conflict.  When the transaction's record is found:
* `upgrading_` already set: the transaction is `ABORTED` and the call fails,
  the queue untouched (the `throw` of `UPGRADE_CONFLICT` on line 154 is
  commented out; failing means returning `false` with the caller aborted);
* else: the record becomes an ungranted `EXCLUSIVE` request spliced to the
  tail, `upgrading_` is set, and `rid` leaves the shared lock set. -/
def lockUpgradeStep (q : LockRequestQueue) (txn : Txn) (rid : Nat) :
    LockRequestQueue × Txn × Bool :=
  match upgradeScan txn.txnId q.requests with
  | none => (q, txn, false)
  | some (others, _) =>
    if q.upgrading then (q, { txn with state := TxnState.aborted }, true)
    else
      ({ requests := others ++ [⟨txn.txnId, LMode.exclusive, false⟩],
         upgrading := true },
       { txn with sharedSet := eraseRid txn.sharedSet rid }, false)

/-- The enqueue step of `LockManager::LockExclusive` on an existing queue
(lock_manager.cpp line 120), which `LockUpgrade` reaches on line 174 before
blocking on the condition variable: a fresh ungranted `EXCLUSIVE` request is
appended. -/
def lockExclusiveEnqueue (q : LockRequestQueue) (tid : Int) :
    LockRequestQueue :=
  { q with requests := q.requests ++ [⟨tid, LMode.exclusive, false⟩] }

/-! ### Deadlock detection (lock_manager.cpp lines 242-379) -/

/-- The per-queue accumulation of `LockManager::HasCycle` (lines 269-282):
`txn_id` ends up as the id of the **last** ungranted request, `-1` when all
are granted. -/
def lastUngranted (reqs : List LockRequest) : Int :=
  reqs.foldl (fun acc r => if r.granted then acc else r.txnId) (-1)

/-- The granted requests' transaction ids, in queue order
(`wait_for_vec`). -/
def grantedTxns (reqs : List LockRequest) : List Int :=
  (reqs.filter (fun r => r.granted)).map (fun r => r.txnId)

/-- `waits_for_.find`. -/
def wfLookup : List (Int × List Int) → Int → Option (List Int)
  | [], _ => none
  | (k, v) :: rest, t => if k = t then some v else wfLookup rest t

/-- `waits_for_.emplace(txn_id, wait_for_vec)`: inserts only when the key
is absent. -/
def wfEmplace (g : List (Int × List Int)) (k : Int) (v : List Int) :
    List (Int × List Int) :=
  match wfLookup g k with
  | some _ => g
  | none => g ++ [(k, v)]

/-- The wait-for-graph construction of `LockManager::HasCycle` (lines
265-290), run over the lock table from an empty `waits_for_`: for each
queue, the single recorded waiter (the last ungranted request) points at
every granted holder. -/
def buildWaitsFor (tbl : List (Nat × LockRequestQueue)) :
    List (Int × List Int) :=
  tbl.foldl
    (fun g p =>
      let tid := lastUngranted p.2.requests
      if tid = -1 then g else wfEmplace g tid (grantedTxns p.2.requests))
    []

/-- `sort(cycle.begin(), cycle.end()); *aborted_txn_id = cycle[0]` (lines
327-328): the head of the sorted DFS path is its minimum. -/
def pathMin : List Int → Int
  | [] => -1
  | x :: xs => xs.foldl min x

mutual

/-- `LockManager::dfs` (lock_manager.cpp lines 318-345), body for one
vertex: look up its adjacency list and walk the neighbors.  `fuel`
decreases on every step; the concrete invocations supply ample fuel.
Returns the victim (if a cycle was hit) and the updated `visited` set. -/
def dfsVisit (g : List (Int × List Int)) :
    Nat → Int → List Int → List Int → Option Int × List Int
  | 0, _, visited, _ => (none, visited)
  | fuel + 1, u, visited, path =>
    match wfLookup g u with
    | none => (none, visited)
    | some nbrs => dfsNeighbors g fuel nbrs visited path

/-- The neighbor loop of `LockManager::dfs` (lines 324-343): a neighbor on
the current path closes a cycle and the **minimum of the whole DFS path**
(`cycle[0]` after sorting) is selected; an unvisited neighbor is explored
with the path extended; after an unsuccessful exploration the path
reverts (`in_cycle.erase` / `removeFromVector`). -/
def dfsNeighbors (g : List (Int × List Int)) :
    Nat → List Int → List Int → List Int → Option Int × List Int
  | 0, _, visited, _ => (none, visited)
  | _ + 1, [], visited, _ => (none, visited)
  | fuel + 1, n :: rest, visited, path =>
    if n ∈ path then (some (pathMin path), visited)
    else if n ∈ visited then dfsNeighbors g fuel rest visited path
    else
      match dfsVisit g fuel n (n :: visited) (path ++ [n]) with
      | (some v, visited1) => (some v, visited1)
      | (none, visited1) => dfsNeighbors g fuel rest visited1 path

end

/-- Modelled from the spec: `LockManager::MinUnvisitedTxn` is declared in
the lock-manager header, which is not among the sources; spec §4.4 step 2
says the DFS starts from the lowest-id unvisited transaction.  Returns `-1`
when every key is visited. -/
def minUnvisited (g : List (Int × List Int)) (visited : List Int) : Int :=
  g.foldl
    (fun acc p =>
      if p.1 ∈ visited then acc
      else if acc = -1 then p.1 else min acc p.1)
    (-1)

/-- Fuel amply covering a DFS over `g` (every vertex and edge step). -/
def dfsFuel (g : List (Int × List Int)) : Nat :=
  2 * (g.length + g.foldl (fun a p => a + p.2.length) 0) + 4

/-- The `while (visited.size() < waits_for_.size())` loop of
`LockManager::HasCycle` (lines 302-314). -/
def hasCycleLoop (g : List (Int × List Int)) :
    Nat → List Int → Option Int
  | 0, _ => none
  | fuel + 1, visited =>
    if visited.length < g.length then
      let m := minUnvisited g visited
      match dfsVisit g (dfsFuel g) m (m :: visited) [m] with
      | (some v, _) => some v
      | (none, visited1) => hasCycleLoop g fuel visited1
    else none

/-- `LockManager::HasCycle` applied to a lock table: build the wait-for
graph and run the detection loop. -/
def hasCycleVictim (tbl : List (Nat × LockRequestQueue)) : Option Int :=
  let g := buildWaitsFor tbl
  hasCycleLoop g (g.length + 1) []

/-- Outcome of one pass of the detector. -/
structure DetectOutcome where
  aborted : Option Int
  notified : List Nat
  deriving DecidableEq, Repr

/-- One body iteration of `LockManager::RunCycleDetection` (lock_manager.cpp
lines 368-374): if `HasCycle` names a victim its state is set to `ABORTED`;
no condition variable is notified anywhere in the function, so the set of
broadcast queues is empty. -/
def runCycleDetectionStep (tbl : List (Nat × LockRequestQueue)) :
    DetectOutcome :=
  match hasCycleVictim tbl with
  | some v => { aborted := some v, notified := [] }
  | none => { aborted := none, notified := [] }

/-! ## Concrete fixtures used by the claim theorems and witnesses -/

/-- A tree with `leaf_max_size = internal_max_size = 10` holding the single
pair `(7, 100)` — the state after `Insert(7, A)` on a fresh tree. -/
def dupTree : BPTree := startNewTree (emptyTree 10 10) 7 100

/-- The spec §8 scenario-1 insert sequence `1..5` on a tree constructed
with `leaf_max_size = 3`, `internal_max_size = 3`. -/
def seqTree : Option BPTree :=
  insertSeq (emptyTree 3 3) [(1, 1), (2, 2), (3, 3), (4, 4), (5, 5)]

/-- The first two inserts of the same scenario. -/
def twoTree : Option BPTree := insertSeq (emptyTree 3 3) [(1, 1), (2, 2)]

/-- A one-frame pool whose resident page 9 is pinned once and dirty. -/
def stickyState : BpmState :=
  { pages := [⟨9, 1, true, 42⟩], pageTable := [(9, 0)], freeList := [],
    replacer := ⟨[], [], 0⟩, disk := [], deallocated := [] }

/-- A fresh frame as the constructor produces it. -/
def freshFrame : Frame := ⟨-1, 0, false, 0⟩

/-- A two-frame pool with both frames on the free list, no resident pages,
and page 5 holding the value 77 on disk. -/
def fetchState : BpmState :=
  { pages := [freshFrame, freshFrame], pageTable := [], freeList := [0, 1],
    replacer := ⟨[], [], 0⟩, disk := [(5, 77)], deallocated := [] }

/-- A one-frame pool whose resident page 9 is unpinned (and dirty). -/
def delState : BpmState :=
  { pages := [⟨9, 0, true, 42⟩], pageTable := [(9, 0)], freeList := [],
    replacer := ⟨[], [], 0⟩, disk := [], deallocated := [] }

/-- The same pool with page 9 pinned twice. -/
def delStatePinned : BpmState :=
  { pages := [⟨9, 2, false, 42⟩], pageTable := [(9, 0)], freeList := [],
    replacer := ⟨[], [], 0⟩, disk := [], deallocated := [] }

/-- Lock table of a three-transaction wait pattern: T2 holds X on record 1
with T1 waiting for S; T3 holds X on record 2 with T2 waiting for X; T2
holds X on record 3 with T3 waiting for X.  The wait-for graph it induces is
`1 → 2, 2 → 3, 3 → 2`: the only cycle is `2 → 3 → 2`, and T1 (which no
transaction waits for) merely waits on that cycle from outside. -/
def deadlockTable : List (Nat × LockRequestQueue) :=
  [(1, ⟨[⟨2, LMode.exclusive, true⟩, ⟨1, LMode.shared, false⟩], false⟩),
   (2, ⟨[⟨3, LMode.exclusive, true⟩, ⟨2, LMode.exclusive, false⟩], false⟩),
   (3, ⟨[⟨2, LMode.exclusive, true⟩, ⟨3, LMode.exclusive, false⟩], false⟩)]

/-- The spec §8 scenario-6 pattern: T5 holds X on A and waits for B, T9
holds X on B and waits for A. -/
def deadlockTable2 : List (Nat × LockRequestQueue) :=
  [(10, ⟨[⟨5, LMode.exclusive, true⟩, ⟨9, LMode.exclusive, false⟩], false⟩),
   (11, ⟨[⟨9, LMode.exclusive, true⟩, ⟨5, LMode.exclusive, false⟩], false⟩)]

/-- A queue on record 7 holding granted S locks of T1 and T2, nobody
upgrading. -/
def upQueue : LockRequestQueue :=
  ⟨[⟨1, LMode.shared, true⟩, ⟨2, LMode.shared, true⟩], false⟩

/-- T1, `REPEATABLE_READ`, growing, holding S on record 7. -/
def upTxn1 : Txn := ⟨1, IsoLevel.repeatableRead, TxnState.growing, [7], []⟩

/-- T2, `REPEATABLE_READ`, growing, holding S on record 7. -/
def upTxn2 : Txn := ⟨2, IsoLevel.repeatableRead, TxnState.growing, [7], []⟩

/-- The lock table holding `upQueue` on record 7. -/
def upTable : List (Nat × LockRequestQueue) := [(7, upQueue)]

/-- A two-frame ring with frame 3 referenced and frame 4 not, hand at 0. -/
def clockW : ClockState := ⟨[3, 4], [(3, true), (4, false)], 0⟩

/-! ## Claim theorems -/

/-- Claim C1 (code bug, code evaluated at the failing input).  The claim —
and the doc comment over `BPlusTree::Insert` itself — says inserting an
existing key returns `false` and leaves the tree unchanged.  In the
unlatched variant of b_plus_tree.cpp (lines 74-87) the duplicate is indeed
rejected at the leaf, so the tree is unchanged, but `Insert` discards the
leaf's answer and returns `true` unconditionally: inserting key 7 a second
time yields `(true, unchanged tree)`, not `false`. -/
theorem claim_C1 : bptInsert dupTree 7 200 = some (true, dupTree) := by decide

/-- Claim C2 (code bug, code evaluated at the failing input).  With
`leaf_max_size = 3` the leaf `Init` stores `max_size - 1 = 2` and `IsFull`
fires at `GetSize() >= GetMaxSize() - 1 = 1`, so a leaf splits on its second
insert already: after inserting 1 and 2 the root is an internal page over the
leaves `[1]` and `[2]`, and after the full sequence 1..5 the leaf level is
the five singleton leaves `[1] → [2] → [3] → [4] → [5]` with root key list
`[_, 3]` (sentinel slot modelled as key 0) — not the claimed
`[1, 2] → [3, 4] → [5]` under a root `[_, 3, 5]`. -/
theorem claim_C2 :
    twoTree.map leafChain = some [[1], [2]] ∧
    seqTree.map leafChain = some [[1], [2], [3], [4], [5]] ∧
    seqTree.map rootInternalKeys = some (some [0, 3]) ∧
    seqTree.map leafChain ≠ some [[1, 2], [3, 4], [5]] := by decide

/-- Claim C3 (code bug, code evaluated at the failing input).  The claim
says the dirty bit is sticky across `UnpinPage` (OR-ed, never overwritten).
`UnpinPageImpl` executes `page->SetDirty(is_dirty)` — a plain assignment —
so unpinning the dirty resident page 9 with `is_dirty = false` succeeds and
clears the previously set dirty bit. -/
theorem claim_C3 :
    (unpinPageImpl stickyState 9 false).1 = true ∧
    ((unpinPageImpl stickyState 9 false).2.pages.getD 0 freshFrame).isDirty
      = false := by decide

/-- Claim C4 (code bug, code evaluated at the failing input).  Fetching the
non-resident page 5 from a pool whose free list is `[0, 1]` chooses frame 0
and installs the page-table mapping with pin count 1 and the disk bytes read
in, but the frame is **not** removed from the free list and the frame's
`page_id` metadata is **not** set to 5 (it keeps the stale
`INVALID_PAGE_ID`), contradicting the claim (and the function's own step
comments). -/
theorem claim_C4 :
    (fetchPageImpl fetchState 5).1 = some 0 ∧
    (fetchPageImpl fetchState 5).2.pageTable = [(5, 0)] ∧
    ((fetchPageImpl fetchState 5).2.pages.getD 0 freshFrame).pinCount = 1 ∧
    ((fetchPageImpl fetchState 5).2.pages.getD 0 freshFrame).data = 77 ∧
    (fetchPageImpl fetchState 5).2.freeList = [0, 1] ∧
    ((fetchPageImpl fetchState 5).2.pages.getD 0 freshFrame).pageId = -1 := by
  decide

/-- Claim C5 (code bug, code evaluated at the failing input).  On
`deadlockTable` the wait-for graph is `1 → 2, 2 → 3, 3 → 2`; its only cycle
is `2 → 3 → 2` (lowest id on the cycle: 2), and transaction 1 has no
incoming edge, so it lies on no cycle.  Yet `HasCycle`/`dfs` select the
minimum of the whole DFS path (`sort(cycle); cycle[0]`), which is 1 — a
transaction outside the cycle — and `RunCycleDetection` merely sets the
victim's state to `ABORTED` without broadcasting any queue.  On the
two-transaction pattern of spec §8 scenario 6 the DFS path coincides with
the cycle and the victim is T5 as claimed. -/
theorem claim_C5 :
    hasCycleVictim deadlockTable = some 1 ∧
    (runCycleDetectionStep deadlockTable).aborted = some 1 ∧
    (runCycleDetectionStep deadlockTable).notified = [] ∧
    wfLookup (buildWaitsFor deadlockTable) 2 = some [3] ∧
    wfLookup (buildWaitsFor deadlockTable) 3 = some [2] ∧
    (∀ p ∈ buildWaitsFor deadlockTable, (1 : Int) ∉ p.2) ∧
    hasCycleVictim deadlockTable2 = some 5 := by decide

/-- Claim C6 (code bug, code evaluated at the failing input).  On the empty
tree `FindLeafPage` returns the null handle, and the unlatched
`BPlusTree::GetValue` (b_plus_tree.cpp lines 51-62) dereferences it
unconditionally (`FindLeafPage(key)->GetData()`), modelled as the `none`
crash outcome — the search does not "return absent without error".  The
latched variant checks `IsEmpty` first and returns absent (`false`) as the
claim describes. -/
theorem claim_C6 :
    findLeafPage (emptyTree 3 3) 42 = none ∧
    getValueUnlatched (emptyTree 3 3) 42 = none ∧
    getValueLatched (emptyTree 3 3) 42 = some false := by decide

/-- Claim C8 (code bug, code evaluated at the failing input).  Deleting the
resident unpinned page 9 returns `true`, removes the page-table entry,
resets the frame's metadata and appends frame 0 to the free list — but the
`deallocated` set stays empty: `DeletePageImpl` never calls
`DiskManager::DeallocatePage`, contradicting the claim and the function's
own step-0 comment.  The other two branches behave as claimed: a
non-resident page id succeeds as a no-op and a pinned page fails with the
state unchanged. -/
theorem claim_C8 :
    deletePageImpl delState 9 =
      (true, { delState with pageTable := [], pages := [⟨9, 0, false, 42⟩],
                             freeList := [0] }) ∧
    (deletePageImpl delState 9).2.deallocated = [] ∧
    deletePageImpl delStatePinned 9 = (false, delStatePinned) ∧
    deletePageImpl delState 44 = (true, delState) := by decide

/-- Clearing a present key leaves it present with a `false` bit. -/
theorem refsFind_refsClear (refs : List (Int × Bool)) (v : Int) (b : Bool)
    (h : refsFind refs v = some b) :
    refsFind (refsClear refs v) v = some false := by
  induction refs with
  | nil => simp [refsFind] at h
  | cons p rest ih =>
    obtain ⟨k, b0⟩ := p
    by_cases hk : k = v
    · simp [refsClear, refsFind, hk]
    · simp only [refsFind, if_neg hk] at h
      simp [refsClear, refsFind, hk, ih h]

/-- Erasing a key removes every entry for it. -/
theorem refsFind_refsErase (refs : List (Int × Bool)) (v : Int) :
    refsFind (refsErase refs v) v = none := by
  induction refs with
  | nil => simp [refsErase, refsFind]
  | cons p rest ih =>
    obtain ⟨k, b0⟩ := p
    by_cases hk : k = v
    · simp [refsErase, hk, ih]
    · simp [refsErase, refsFind, hk, ih]

/-- Claim C9 (confirmed).  `Victim` fails exactly on the empty ring; on a
non-empty ring (with the hand in range — `pointer_` is never written by any
source function, so it keeps its initial value 0) it returns a frame whose
reference bit was unset at the moment of selection (either it was already
unset, or the scan's first examination cleared it and the second found it
unset, in which case exactly 2 candidates were examined), removes that frame
from the ring so the size drops by one, erases its map entry, and examines
at most `2 * Size()` candidates. -/
theorem claim_C9 (s : ClockState)
    (h : s.pointer < s.pool.length ∨ s.pool = []) :
    ((lruVictim s).1 = none ↔ s.pool = []) ∧
    (∀ f, (lruVictim s).1 = some f →
      (lruVictim s).2.1.pool = s.pool.erase f ∧
      (lruVictim s).2.1.pool.length + 1 = s.pool.length ∧
      refsFind (lruVictim s).2.1.refs f = none ∧
      (refsFind s.refs f ≠ some true ∨ (lruVictim s).2.2 = 2) ∧
      (lruVictim s).2.2 ≤ 2 * replacerSize s) := by
  rcases h with hp | hempty
  · have hne : s.pool ≠ [] := by
      intro h0
      rw [h0] at hp
      simp at hp
    have hEmptyFalse : s.pool.isEmpty = false := by
      cases hpool : s.pool with
      | nil => exact absurd hpool hne
      | cons a l => rfl
    have hget : s.pool.get? s.pointer = some (s.pool.get ⟨s.pointer, hp⟩) :=
      List.get?_eq_get hp
    set v := s.pool.get ⟨s.pointer, hp⟩ with hv
    have hmem : v ∈ s.pool := s.pool.get_mem _ _
    have hlenpos : 0 < s.pool.length := Nat.lt_of_le_of_lt (Nat.zero_le _) hp
    have hlenerase : (s.pool.erase v).length = s.pool.length - 1 :=
      List.length_erase_of_mem hmem
    obtain ⟨L, hL⟩ : ∃ L, s.pool.length = L + 1 :=
      ⟨s.pool.length - 1, by omega⟩
    have hres : ∃ refs1,
        lruVictim s = (some v, ⟨s.pool.erase v, refs1, s.pointer⟩,
          if refsFind s.refs v = some true then 2 else 1) ∧
        refsFind refs1 v = none := by
      have hunfold : lruVictim s = victimScan (s.pool.length + 1) s 0 := by
        simp [lruVictim, hEmptyFalse]
      cases hfind : refsFind s.refs v with
      | none =>
        refine ⟨refsErase s.refs v, ?_, refsFind_refsErase _ _⟩
        rw [hunfold, victimScan, hget]
        simp [hfind]
      | some b =>
        cases b with
        | false =>
          refine ⟨refsErase s.refs v, ?_, refsFind_refsErase _ _⟩
          rw [hunfold, victimScan, hget]
          simp [hfind]
        | true =>
          refine ⟨refsErase (refsClear s.refs v) v, ?_, refsFind_refsErase _ _⟩
          have hclear : refsFind (refsClear s.refs v) v = some false :=
            refsFind_refsClear s.refs v true hfind
          rw [hunfold, victimScan, hget]
          simp only [hfind]
          rw [show s.pool.length = L + 1 from hL, victimScan]
          have hget2 : s.pool[s.pointer]? = some v := by
            rw [← List.get?_eq_getElem?]
            exact hget
          simp [hget2, hclear, hfind]
    obtain ⟨refs1, hres1, hrefs1⟩ := hres
    constructor
    · rw [hres1]
      constructor
      · intro h0
        exact absurd h0 (by simp)
      · intro h0
        exact absurd h0 hne
    · intro f hf
      rw [hres1] at hf
      have hfv : f = v := by
        simpa using hf.symm
      subst hfv
      rw [hres1]
      refine ⟨rfl, ?_, hrefs1, ?_, ?_⟩
      · simp only []
        rw [hlenerase]
        omega
      · by_cases ht : refsFind s.refs v = some true
        · right
          simp [ht]
        · left
          exact ht
      · by_cases ht : refsFind s.refs v = some true <;>
          simp only [ht, if_pos, if_neg, replacerSize, if_true, if_false] <;>
          omega
  · constructor
    · simp [lruVictim, hempty]
    · intro f hf
      simp [lruVictim, hempty] at hf

/-- Witness for claim C9 at the concrete ring `clockW`: the hand points at
frame 3 whose bit is set; the scan clears it, selects frame 3 on the second
examination, and shrinks the ring. -/
theorem claim_C9_witness :
    ((lruVictim clockW).1 = none ↔ clockW.pool = []) ∧
    (lruVictim clockW).2.1.pool = clockW.pool.erase 3 ∧
    refsFind (lruVictim clockW).2.1.refs 3 = none ∧
    (lruVictim clockW).2.2 ≤ 2 * replacerSize clockW :=
  ⟨(claim_C9 clockW (Or.inl (by decide))).1,
   ((claim_C9 clockW (Or.inl (by decide))).2 3 (by decide)).1,
   ((claim_C9 clockW (Or.inl (by decide))).2 3 (by decide)).2.2.1,
   ((claim_C9 clockW (Or.inl (by decide))).2 3 (by decide)).2.2.2.2⟩

/-- The record returned by the queue scan is a member of the queue. -/
theorem upgradeScan_rec_mem (tid : Int) (l : List LockRequest) :
    ∀ others rec0, upgradeScan tid l = some (others, rec0) → rec0 ∈ l := by
  induction l with
  | nil =>
    intro others rec0 h
    simp [upgradeScan] at h
  | cons a rest ih =>
    intro others rec0 h
    by_cases ha : a.txnId = tid
    · simp only [upgradeScan, if_pos ha, Option.some.injEq, Prod.mk.injEq] at h
      exact h.2 ▸ List.mem_cons_self a rest
    · simp only [upgradeScan, if_neg ha] at h
      rcases hx : upgradeScan tid rest with _ | p
      · rw [hx] at h
        simp at h
      · obtain ⟨o, rec1⟩ := p
        rw [hx] at h
        simp only [Option.some.injEq, Prod.mk.injEq] at h
        exact h.2 ▸ List.mem_cons_of_mem a (ih o rec1 hx)

/-- Every queue record of a different transaction survives the scan's
removal. -/
theorem upgradeScan_preserves (tid : Int) (l : List LockRequest) :
    ∀ others rec0, upgradeScan tid l = some (others, rec0) →
    ∀ r ∈ l, r.txnId ≠ tid → r ∈ others := by
  induction l with
  | nil =>
    intro others rec0 h
    simp [upgradeScan] at h
  | cons a rest ih =>
    intro others rec0 h r hr hne
    by_cases ha : a.txnId = tid
    · simp only [upgradeScan, if_pos ha, Option.some.injEq, Prod.mk.injEq] at h
      rcases List.mem_cons.mp hr with h3 | h3
      · exact absurd (h3 ▸ ha) hne
      · exact h.1 ▸ h3
    · simp only [upgradeScan, if_neg ha] at h
      rcases hx : upgradeScan tid rest with _ | p
      · rw [hx] at h
        simp at h
      · obtain ⟨o, rec1⟩ := p
        rw [hx] at h
        simp only [Option.some.injEq, Prod.mk.injEq] at h
        rcases List.mem_cons.mp hr with h3 | h3
        · rw [← h.1, h3]
          exact List.mem_cons_self a o
        · rw [← h.1]
          exact List.mem_cons_of_mem a (ih o rec1 hx r h3 hne)

/-- A queue containing a record of `tid` is always found by the scan. -/
theorem upgradeScan_isSome_of_mem (tid : Int) (l : List LockRequest)
    (r : LockRequest) (hr : r ∈ l) (htid : r.txnId = tid) :
    (upgradeScan tid l).isSome := by
  induction l with
  | nil => simp at hr
  | cons a rest ih =>
    by_cases ha : a.txnId = tid
    · simp [upgradeScan, ha]
    · rcases List.mem_cons.mp hr with h1 | h2
      · exact absurd (h1 ▸ htid) ha
      · have hsome := ih h2
        rcases hx : upgradeScan tid rest with _ | p
        · rw [hx] at hsome
          simp at hsome
        · obtain ⟨o, rec1⟩ := p
          simp [upgradeScan, ha, hx]

/-- Claim C7 (confirmed).  For a `GROWING` caller whose granted S record is
in the queue (hypothesis `hfind`: the scan splits the queue into the other
records and the caller's `(txn_id, SHARED, granted)` record):
* if the queue's `upgrading_` flag is already set, the caller is `ABORTED`
  and the call fails (returns `false` — the `UPGRADE_CONFLICT` throw is the
  commented-out line 154), leaving the queue unchanged;
* otherwise `upgrading_` is set, the caller's record becomes an ungranted
  `EXCLUSIVE` record at the queue tail, and `rid` leaves the shared set,
  after which the caller waits as a fresh X request
  (`lockExclusiveEnqueue`);
* and when a second S-holder runs its own upgrade after the first one's
  critical section (either order, by the symmetry of the quantifiers),
  exactly one of the two aborts: the first caller succeeds and keeps its
  state, the second finds `upgrading_` set, is `ABORTED`, and leaves the
  queue unchanged. -/
theorem claim_C7 (q : LockRequestQueue) (txn : Txn) (rid : Nat)
    (others : List LockRequest)
    (hfind : upgradeScan txn.txnId q.requests =
      some (others, ⟨txn.txnId, LMode.shared, true⟩)) :
    (q.upgrading = true →
      lockUpgradeStep q txn rid =
        (q, { txn with state := TxnState.aborted }, true)) ∧
    (q.upgrading = false →
      lockUpgradeStep q txn rid =
        (⟨others ++ [⟨txn.txnId, LMode.exclusive, false⟩], true⟩,
         { txn with sharedSet := eraseRid txn.sharedSet rid }, false)) ∧
    (∀ (txn2 : Txn) (others2 : List LockRequest),
      q.upgrading = false →
      txn2.txnId ≠ txn.txnId →
      upgradeScan txn2.txnId q.requests =
        some (others2, ⟨txn2.txnId, LMode.shared, true⟩) →
      (lockUpgradeStep q txn rid).2.2 = false ∧
      (lockUpgradeStep q txn rid).2.1.state = txn.state ∧
      (lockUpgradeStep
          (lockExclusiveEnqueue (lockUpgradeStep q txn rid).1 txn.txnId)
          txn2 rid).2.2 = true ∧
      (lockUpgradeStep
          (lockExclusiveEnqueue (lockUpgradeStep q txn rid).1 txn.txnId)
          txn2 rid).2.1.state = TxnState.aborted ∧
      (lockUpgradeStep
          (lockExclusiveEnqueue (lockUpgradeStep q txn rid).1 txn.txnId)
          txn2 rid).1 =
        lockExclusiveEnqueue (lockUpgradeStep q txn rid).1 txn.txnId) := by
  refine ⟨?_, ?_, ?_⟩
  · intro hup
    simp [lockUpgradeStep, hfind, hup]
  · intro hup
    simp [lockUpgradeStep, hfind, hup]
  · intro txn2 others2 hup hne hfind2
    have hstep1 : lockUpgradeStep q txn rid =
        (⟨others ++ [⟨txn.txnId, LMode.exclusive, false⟩], true⟩,
         { txn with sharedSet := eraseRid txn.sharedSet rid }, false) := by
      simp [lockUpgradeStep, hfind, hup]
    have hrec2mem : (⟨txn2.txnId, LMode.shared, true⟩ : LockRequest) ∈
        q.requests :=
      upgradeScan_rec_mem txn2.txnId q.requests others2 _ hfind2
    have hrec2others : (⟨txn2.txnId, LMode.shared, true⟩ : LockRequest) ∈
        others :=
      upgradeScan_preserves txn.txnId q.requests others _ hfind _ hrec2mem
        (by simpa using hne)
    have hq2 : lockExclusiveEnqueue (lockUpgradeStep q txn rid).1 txn.txnId =
        ⟨others ++ [⟨txn.txnId, LMode.exclusive, false⟩,
           ⟨txn.txnId, LMode.exclusive, false⟩], true⟩ := by
      rw [hstep1]
      simp [lockExclusiveEnqueue]
    have hmem2 : (⟨txn2.txnId, LMode.shared, true⟩ : LockRequest) ∈
        others ++ [⟨txn.txnId, LMode.exclusive, false⟩,
          ⟨txn.txnId, LMode.exclusive, false⟩] :=
      List.mem_append_left _ hrec2others
    have hsome := upgradeScan_isSome_of_mem txn2.txnId _ _ hmem2 rfl
    rcases hscan2 : upgradeScan txn2.txnId
        (others ++ [⟨txn.txnId, LMode.exclusive, false⟩,
          ⟨txn.txnId, LMode.exclusive, false⟩]) with _ | p
    · rw [hscan2] at hsome
      simp at hsome
    · obtain ⟨o3, rec3⟩ := p
      refine ⟨by rw [hstep1], by rw [hstep1], ?_, ?_, ?_⟩ <;>
        rw [hq2] <;> simp [lockUpgradeStep, hscan2]

/-- Witness for claim C7 on the spec §8 scenario-5 state: both T1 and T2
hold granted S locks on record 7; T1's upgrade succeeds (its record becomes
an ungranted X at the tail, `upgrading_` set), and T2's subsequent upgrade
finds `upgrading_` set and aborts. -/
theorem claim_C7_witness :
    (lockUpgradeStep upQueue upTxn1 7 =
      (⟨[⟨2, LMode.shared, true⟩] ++ [⟨upTxn1.txnId, LMode.exclusive, false⟩],
        true⟩,
       { upTxn1 with sharedSet := eraseRid upTxn1.sharedSet 7 }, false)) ∧
    (lockUpgradeStep
        (lockExclusiveEnqueue (lockUpgradeStep upQueue upTxn1 7).1
          upTxn1.txnId) upTxn2 7).2.2 = true ∧
    (lockUpgradeStep
        (lockExclusiveEnqueue (lockUpgradeStep upQueue upTxn1 7).1
          upTxn1.txnId) upTxn2 7).2.1.state = TxnState.aborted :=
  have h := claim_C7 upQueue upTxn1 7 [⟨2, LMode.shared, true⟩] (by decide)
  have h3 := h.2.2 upTxn2 [⟨1, LMode.shared, true⟩] (by decide) (by decide)
    (by decide)
  ⟨h.2.1 (by decide), h3.2.2.1, h3.2.2.2.1⟩

/-- Claim C10 (confirmed).  `Unlock` returns `false` with the lock table,
lock sets and transaction state untouched precisely when the caller holds
neither an S nor an X lock on `rid`.  When a lock is held, the call returns
`true`, removes the caller's requests from the record's queue, erases `rid`
from the held mode's lock set (the other set untouched), and moves a
`GROWING` transaction to `SHRINKING` except when a `READ_COMMITTED`
transaction releases a shared lock.  `hdisj` excludes the degenerate state
of holding both modes at once on the same record; `htbl` records the
representation invariant that a held lock has a queue in the table (the C++
indexes `lock_table_[rid]` unconditionally). -/
theorem claim_C10 (tbl : List (Nat × LockRequestQueue)) (txn : Txn)
    (rid : Nat)
    (hdisj : ¬(isSharedLocked txn rid = true ∧
      isExclusiveLocked txn rid = true))
    (_htbl : isSharedLocked txn rid = true ∨ isExclusiveLocked txn rid = true →
      (tableFind tbl rid).isSome) :
    ((lmUnlock tbl txn rid).1 = false ↔
      (isSharedLocked txn rid = false ∧ isExclusiveLocked txn rid = false)) ∧
    (isSharedLocked txn rid = false ∧ isExclusiveLocked txn rid = false →
      lmUnlock tbl txn rid = (false, txn, tbl)) ∧
    ((isSharedLocked txn rid = true ∨ isExclusiveLocked txn rid = true) →
      (lmUnlock tbl txn rid).1 = true ∧
      (lmUnlock tbl txn rid).2.2 =
        tableUpdate tbl rid (fun q => removeTxnRequests q txn.txnId) ∧
      (isSharedLocked txn rid = true →
        (lmUnlock tbl txn rid).2.1.sharedSet = eraseRid txn.sharedSet rid ∧
        (lmUnlock tbl txn rid).2.1.exclusiveSet = txn.exclusiveSet) ∧
      (isExclusiveLocked txn rid = true →
        (lmUnlock tbl txn rid).2.1.exclusiveSet =
          eraseRid txn.exclusiveSet rid ∧
        (lmUnlock tbl txn rid).2.1.sharedSet = txn.sharedSet) ∧
      (lmUnlock tbl txn rid).2.1.state =
        (if txn.isolation = IsoLevel.readCommitted ∧
            isSharedLocked txn rid = true
         then txn.state
         else if txn.state = TxnState.growing then TxnState.shrinking
         else txn.state)) := by
  cases hS : isSharedLocked txn rid with
  | true =>
    cases hX : isExclusiveLocked txn rid with
    | true => exact absurd ⟨hS, hX⟩ hdisj
    | false =>
      by_cases hRC : txn.isolation = IsoLevel.readCommitted
      · simp [lmUnlock, hS, hX, hRC]
      · by_cases hG : txn.state = TxnState.growing <;>
          simp [lmUnlock, hS, hX, hRC, hG]
  | false =>
    cases hX : isExclusiveLocked txn rid with
    | true =>
      by_cases hRC : txn.isolation = IsoLevel.readCommitted <;>
        by_cases hG : txn.state = TxnState.growing <;>
        simp [lmUnlock, hS, hX, hRC, hG]
    | false => simp [lmUnlock, hS, hX]

/-- Witness for claim C10: the `REPEATABLE_READ` transaction T1 releasing
its S lock on record 7 succeeds and moves from `GROWING` to `SHRINKING`. -/
theorem claim_C10_witness :
    ((lmUnlock upTable upTxn1 7).1 = false ↔
      (isSharedLocked upTxn1 7 = false ∧ isExclusiveLocked upTxn1 7 = false)) ∧
    (lmUnlock upTable upTxn1 7).1 = true ∧
    (lmUnlock upTable upTxn1 7).2.1.state =
      (if upTxn1.isolation = IsoLevel.readCommitted ∧
          isSharedLocked upTxn1 7 = true
       then upTxn1.state
       else if upTxn1.state = TxnState.growing then TxnState.shrinking
       else upTxn1.state) :=
  have h := claim_C10 upTable upTxn1 7 (by decide) (by decide)
  ⟨h.1, (h.2.2 (Or.inl (by decide))).1,
   (h.2.2 (Or.inl (by decide))).2.2.2.2⟩

end BusTub
